import Mathlib

/-!
Shallow embedding of the Game of Life engine (`src/lib.rs`) and proofs of
its specified properties.  The Rust `u32` quantities stay far below `2^32`
for the fixed 64×64 grid (this is proved below), so they are modelled as
`Nat`; `Vec<Cell>` is modelled as `List Cell`.
-/

set_option maxRecDepth 10000
set_option linter.unusedVariables false
set_option linter.unnecessarySeqFocus false

namespace GameOfLife

/-- The grid's element type: `enum Cell { Dead = 0, Alive = 1 }`. -/
inductive Cell where
  | Dead : Cell
  | Alive : Cell
deriving DecidableEq, Repr

/-- Numeric value of a cell, the source's `cell as u8` cast
(`Dead = 0`, `Alive = 1`). -/
def Cell.toNat : Cell → Nat
  | Cell.Dead => 0
  | Cell.Alive => 1

/-- `Cell::toggle`: `Dead => Alive, Alive => Dead`. -/
def Cell.toggle : Cell → Cell
  | Cell.Dead => Cell.Alive
  | Cell.Alive => Cell.Dead

/-- `struct Universe { width: u32, height: u32, cells: Vec<Cell> }`. -/
structure Universe where
  width : Nat
  height : Nat
  cells : List Cell
deriving DecidableEq, Repr

/-- `Universe::get_index`: `(row * self.width + column) as usize`. -/
def Universe.get_index (u : Universe) (row column : Nat) : Nat :=
  row * u.width + column

/-- Reading `self.cells[idx]`.  The source's indexing panics when out of
bounds; here an out-of-range read defaults to `Dead` (such reads are proved
unreachable under the length invariant, see the safety theorem). -/
def Universe.cellAt (u : Universe) (idx : Nat) : Cell :=
  u.cells.getD idx Cell.Dead

/-- The `north` binding of `Universe::live_neighbor_count`:
`if row == 0 { self.height - 1 } else { row - 1 }`. -/
def Universe.north (u : Universe) (row : Nat) : Nat :=
  if row = 0 then u.height - 1 else row - 1

/-- The `south` binding of `Universe::live_neighbor_count`:
`if row == self.height - 1 { 0 } else { row + 1 }`. -/
def Universe.south (u : Universe) (row : Nat) : Nat :=
  if row = u.height - 1 then 0 else row + 1

/-- The `west` binding of `Universe::live_neighbor_count`:
`if column == 0 { self.width - 1 } else { column - 1 }`. -/
def Universe.west (u : Universe) (column : Nat) : Nat :=
  if column = 0 then u.width - 1 else column - 1

/-- The `east` binding of `Universe::live_neighbor_count`:
`if column == self.width - 1 { 0 } else { column + 1 }`. -/
def Universe.east (u : Universe) (column : Nat) : Nat :=
  if column = u.width - 1 then 0 else column + 1

/-- `Universe::live_neighbor_count`: sums the `as u8` values of the eight
toroidally wrapped neighbours, in the source's order
(nw, n, ne, w, e, sw, s, se), starting from `count = 0`. -/
def Universe.live_neighbor_count (u : Universe) (row column : Nat) : Nat :=
  let nw := u.get_index (u.north row) (u.west column)
  let n := u.get_index (u.north row) column
  let ne := u.get_index (u.north row) (u.east column)
  let w := u.get_index row (u.west column)
  let e := u.get_index row (u.east column)
  let sw := u.get_index (u.south row) (u.west column)
  let s := u.get_index (u.south row) column
  let se := u.get_index (u.south row) (u.east column)
  0 + (u.cellAt nw).toNat + (u.cellAt n).toNat + (u.cellAt ne).toNat
    + (u.cellAt w).toNat + (u.cellAt e).toNat
    + (u.cellAt sw).toNat + (u.cellAt s).toNat + (u.cellAt se).toNat

/-- The `match (cell, live_neighbors)` expression inside `Universe::tick`,
with the Rust arms tried in order: `(Alive, x) if x < 2 => Dead`;
`(Alive, 2) | (Alive, 3) => Alive`; `(Alive, x) if x > 3 => Dead`;
`(Dead, 3) => Alive`; `(otherwise, _) => otherwise`. -/
def next_cell : Cell → Nat → Cell
  | Cell.Alive, x =>
    if x < 2 then Cell.Dead
    else if x = 2 then Cell.Alive
    else if x = 3 then Cell.Alive
    else if x > 3 then Cell.Dead
    else Cell.Alive
  | Cell.Dead, x =>
    if x = 3 then Cell.Alive else Cell.Dead

/-- `Universe::tick`: clones the cell buffer, writes the next generation of
every cell into the clone (reading states and neighbour counts from the
pre-tick buffer `u.cells` throughout), and installs the clone at the end. -/
def Universe.tick (u : Universe) : Universe :=
  let next :=
    (List.range u.height).foldl (fun next row =>
      (List.range u.width).foldl (fun next col =>
        let idx := u.get_index row col
        let cell := u.cellAt idx
        let live_neighbors := u.live_neighbor_count row col
        next.set idx (next_cell cell live_neighbors)) next) u.cells
  { u with cells := next }

/-- `Universe::new`: the fixed 64×64 universe with the hand-authored seed
pattern, cell `i` computed from `column = i % width`, `row = i / width`.
Each branch's arithmetic is guarded so that `Nat` truncated subtraction
agrees with the `u32` subtraction of the source wherever the guard that
short-circuits evaluation in Rust holds. -/
def Universe.new : Universe :=
  let width := 64
  let height := 64
  let cells := (List.range (width * height)).map (fun i =>
    let column := i % width
    let row := i / width
    if row > 4 ∧ row ≤ 16 ∧ column > width - row - 3*width/4+1 ∧ column < width/4 then
      Cell.Alive
    else if row > 4 ∧ row ≤ 16 ∧ column > width/4-1 ∧ column < width/4 + row - 1 then
      Cell.Alive
    else if row > 4 ∧ row ≤ 16 ∧ column > width/2-1 ∧ column > width - row - width/4+1 ∧ column < 3*width/4 then
      Cell.Alive
    else if row > 4 ∧ row ≤ 16 ∧ column > 3*width/4-1 ∧ column < 3*width/4 + row - 1 then
      Cell.Alive
    else if row > 16 ∧ row ≤ 24 ∧ ((column > 1 ∧ column < width/4) ∨ (column > 3*width/4 ∧ column < width - 1)) then
      Cell.Alive
    else if row > 24 ∧ column > row-24 ∧ column < (width - row + 24) then
      Cell.Alive
    else
      Cell.Dead)
  { width := width, height := height, cells := cells }

/-- `Universe::toggle_cell`: toggles `self.cells[idx]` in place at
`idx = get_index(row, column)`. -/
def Universe.toggle_cell (u : Universe) (row column : Nat) : Universe :=
  let idx := u.get_index row column
  { u with cells := u.cells.set idx (u.cellAt idx).toggle }

/-- `Universe::add_glider`: for `delta_row` in `[height-1, 0, 1]` and
`delta_col` in `[width-1, 0, 1]`, writes a fixed cell value at the wrapped
position `((row + delta_row) % height, (column + delta_col) % width)`,
choosing the value by the source's `if`/`continue` chain (first matching
test wins; when no test matches, no write happens). -/
def Universe.add_glider (u : Universe) (row column : Nat) : Universe :=
  let cells :=
    [u.height - 1, 0, 1].foldl (fun cells delta_row =>
      [u.width - 1, 0, 1].foldl (fun cells delta_col =>
        let neighbor_row := (row + delta_row) % u.height
        let neighbor_col := (column + delta_col) % u.width
        let idx := u.get_index neighbor_row neighbor_col
        if delta_row = 1 ∧ delta_col = u.width - 1 then
          cells.set idx Cell.Dead
        else if delta_row = 1 ∧ delta_col = 0 then
          cells.set idx Cell.Alive
        else if delta_row = 1 ∧ delta_col = 1 then
          cells.set idx Cell.Dead
        else if delta_row = 0 ∧ delta_col = u.width - 1 then
          cells.set idx Cell.Dead
        else if delta_row = 0 ∧ delta_col = 0 then
          cells.set idx Cell.Dead
        else if delta_row = 0 ∧ delta_col = 1 then
          cells.set idx Cell.Alive
        else if delta_row = u.height - 1 then
          cells.set idx Cell.Alive
        else
          cells) cells) u.cells
  { u with cells := cells }

/-- An all-`Dead` 64×64 universe, used as the starting grid of the glider
stamp exactness property. -/
def deadUniverse : Universe :=
  { width := 64, height := 64, cells := List.replicate (64 * 64) Cell.Dead }

/-- Apply a list of `(index, value)` writes to a cell buffer, left to right.
Both `tick` and `add_glider` mutate the cell buffer through such a sequence
of `set` writes. -/
def applyWrites (ws : List (Nat × Cell)) (l : List Cell) : List Cell :=
  ws.foldl (fun acc p => acc.set p.1 p.2) l

/-- The `(index, value)` writes that `tick` performs, in row-major loop order. -/
def tickWrites (u : Universe) : List (Nat × Cell) :=
  ((List.range u.height).map (fun row =>
    (List.range u.width).map (fun col =>
      (u.get_index row col,
       next_cell (u.cellAt (u.get_index row col)) (u.live_neighbor_count row col))))).flatten

/-- Flat index of the wrapped patch cell at offset `(dr, dc)` from
`(row, col)` on the 64×64 grid. -/
def gIdx (row col dr dc : Nat) : Nat :=
  ((row + dr) % 64) * 64 + ((col + dc) % 64)

/-- The nine writes `add_glider` performs on a 64×64 universe, in loop order
(`delta_row` in `[63, 0, 1]` outer, `delta_col` in `[63, 0, 1]` inner). -/
def gliderWrites (row col : Nat) : List (Nat × Cell) :=
  [(gIdx row col 63 63, Cell.Alive), (gIdx row col 63 0, Cell.Alive), (gIdx row col 63 1, Cell.Alive),
   (gIdx row col 0 63, Cell.Dead), (gIdx row col 0 0, Cell.Dead), (gIdx row col 0 1, Cell.Alive),
   (gIdx row col 1 63, Cell.Dead), (gIdx row col 1 0, Cell.Alive), (gIdx row col 1 1, Cell.Dead)]

/-- The five patch indices the glider stamp sets `Alive`: the three
northern-row cells (`delta_row = height - 1 = 63`) and the offsets `(0, +1)`
and `(+1, 0)`. -/
def gliderAliveIndices (row col : Nat) : List Nat :=
  [gIdx row col 63 63, gIdx row col 63 0, gIdx row col 63 1,
   gIdx row col 0 1, gIdx row col 1 0]

/-- All nine indices of the stamped 3×3 toroidal patch, in loop order. -/
def gliderPatchIndices (row col : Nat) : List Nat :=
  [gIdx row col 63 63, gIdx row col 63 0, gIdx row col 63 1,
   gIdx row col 0 63, gIdx row col 0 0, gIdx row col 0 1,
   gIdx row col 1 63, gIdx row col 1 0, gIdx row col 1 1]

/-- The transition rule exactly as the specification's §4.2 bullet list
words it (`Alive` with `n < 2` dies, `Alive` with `n = 2` or `n = 3`
survives, `Alive` with `n > 3` dies, `Dead` with `n = 3` is born, anything
else keeps its state), stated for comparison with the source's `next_cell`. -/
def specNextCell (cell : Cell) (n : Nat) : Cell :=
  if cell = Cell.Alive ∧ n < 2 then Cell.Dead
  else if cell = Cell.Alive ∧ (n = 2 ∨ n = 3) then Cell.Alive
  else if cell = Cell.Alive ∧ n > 3 then Cell.Dead
  else if cell = Cell.Dead ∧ n = 3 then Cell.Alive
  else cell

/-- The eight toroidally wrapped neighbour coordinates of `(row, col)` as
the specification describes them (wrapped row above and below, wrapped
column left and right, and the four diagonals), in the source's visit
order. -/
def Universe.wrappedNeighbors (u : Universe) (row col : Nat) : List (Nat × Nat) :=
  [(u.north row, u.west col), (u.north row, col), (u.north row, u.east col),
   (row, u.west col), (row, u.east col),
   (u.south row, u.west col), (u.south row, col), (u.south row, u.east col)]

/-- A public mutating operation of the engine, for stating that the
dimension invariants survive any call sequence. -/
inductive Op where
  | tick : Op
  | toggle : Nat → Nat → Op
  | glider : Nat → Nat → Op

/-- Run one operation against a universe. -/
def applyOp (u : Universe) : Op → Universe
  | Op.tick => u.tick
  | Op.toggle row col => u.toggle_cell row col
  | Op.glider row col => u.add_glider row col

/-- Run a sequence of operations against a universe, oldest first. -/
def applyOps (u : Universe) (ops : List Op) : Universe :=
  ops.foldl applyOp u

/-!
### Write-list machinery
-/

lemma applyWrites_nil (l : List Cell) : applyWrites [] l = l := rfl

lemma applyWrites_cons (p : Nat × Cell) (ws : List (Nat × Cell)) (l : List Cell) :
    applyWrites (p :: ws) l = applyWrites ws (l.set p.1 p.2) := rfl

lemma length_applyWrites (ws : List (Nat × Cell)) (l : List Cell) :
    (applyWrites ws l).length = l.length := by
  induction ws generalizing l with
  | nil => rfl
  | cons p ws ih => rw [applyWrites_cons, ih, List.length_set]

lemma getElem?_applyWrites_of_not_mem (ws : List (Nat × Cell)) (l : List Cell) (j : Nat)
    (h : j ∉ ws.map Prod.fst) : (applyWrites ws l)[j]? = l[j]? := by
  induction ws generalizing l with
  | nil => rfl
  | cons p ws ih =>
    simp only [List.map_cons, List.mem_cons, not_or] at h
    rw [applyWrites_cons, ih _ h.2, List.getElem?_set_ne (Ne.symm h.1)]

lemma getElem?_applyWrites_of_mem (ws : List (Nat × Cell)) (l : List Cell) (j : Nat) (v : Cell)
    (hnd : (ws.map Prod.fst).Nodup) (hmem : (j, v) ∈ ws) (hlt : j < l.length) :
    (applyWrites ws l)[j]? = some v := by
  induction ws generalizing l with
  | nil => simp at hmem
  | cons p ws ih =>
    simp only [List.map_cons, List.nodup_cons] at hnd
    rw [applyWrites_cons]
    rcases List.mem_cons.mp hmem with heq | hmem'
    · have hp : p = (j, v) := heq.symm
      subst hp
      rw [getElem?_applyWrites_of_not_mem ws _ j hnd.1]
      exact List.getElem?_set_self (by simpa using hlt)
    · exact ih _ hnd.2 hmem' (by rw [List.length_set]; exact hlt)

lemma set_getD_self (l : List Cell) (i : Nat) (d : Cell) (h : i < l.length) :
    l.set i (l.getD i d) = l := by
  apply List.ext_getElem?
  intro j
  rw [List.getElem?_set]
  by_cases h1 : i = j
  · subst h1
    rw [if_pos rfl, if_pos h, List.getD_eq_getElem?_getD, List.getElem?_eq_getElem h]
    rfl
  · rw [if_neg h1]

lemma cellAt_of_getElem? {u : Universe} {j : Nat} {v : Cell} (h : u.cells[j]? = some v) :
    u.cellAt j = v := by
  simp only [Universe.cellAt, List.getD_eq_getElem?_getD, h, Option.getD_some]

/-!
### Index arithmetic
-/

lemma get_index_lt (u : Universe) {row col : Nat} (hr : row < u.height) (hc : col < u.width) :
    u.get_index row col < u.width * u.height := by
  have h1 : row * u.width + col < (row + 1) * u.width := by
    rw [Nat.add_mul, Nat.one_mul]; omega
  have h2 : (row + 1) * u.width ≤ u.height * u.width :=
    Nat.mul_le_mul_right _ (Nat.succ_le_of_lt hr)
  have h3 := Nat.mul_comm u.height u.width
  simp only [Universe.get_index]
  omega

lemma get_index_inj (u : Universe) {r c row col : Nat} (hc : c < u.width) (hcol : col < u.width)
    (h : u.get_index r c = u.get_index row col) : r = row ∧ c = col := by
  have hw : 0 < u.width := Nat.lt_of_le_of_lt (Nat.zero_le c) hc
  simp only [Universe.get_index] at h
  have hmod : c = col := by
    have h1 := congrArg (· % u.width) h
    simpa [Nat.mul_comm _ u.width, Nat.mul_add_mod, Nat.mod_eq_of_lt hc,
      Nat.mod_eq_of_lt hcol] using h1
  have hdiv : r = row := by
    have h1 := congrArg (· / u.width) h
    simpa [Nat.mul_comm _ u.width, Nat.mul_add_div hw, Nat.div_eq_of_lt hc,
      Nat.div_eq_of_lt hcol] using h1
  exact ⟨hdiv, hmod⟩

/-!
### Characterising `tick` as a write list
-/

lemma tick_cells_eq (u : Universe) : (u.tick).cells = applyWrites (tickWrites u) u.cells := by
  simp only [Universe.tick, tickWrites, applyWrites, List.foldl_flatten, List.foldl_map]

lemma flatten_row_major (h w : Nat) :
    (((List.range h).map (fun row => (List.range w).map (fun col => row * w + col))).flatten)
      = List.range (h * w) := by
  induction h with
  | zero => simp
  | succ n ih =>
    rw [List.range_succ, List.map_append, List.flatten_append, ih, Nat.succ_mul, List.range_add]
    simp

lemma tickWrites_fst (u : Universe) :
    (tickWrites u).map Prod.fst = List.range (u.height * u.width) := by
  rw [tickWrites, List.map_flatten, ← flatten_row_major u.height u.width]
  simp [List.map_map, Function.comp_def, Universe.get_index]

lemma tickWrites_fst_nodup (u : Universe) : ((tickWrites u).map Prod.fst).Nodup := by
  rw [tickWrites_fst]
  exact List.nodup_range _

lemma tickWrites_mem (u : Universe) {row col : Nat} (hr : row < u.height) (hc : col < u.width) :
    (u.get_index row col,
      next_cell (u.cellAt (u.get_index row col)) (u.live_neighbor_count row col)) ∈ tickWrites u := by
  rw [tickWrites, List.mem_flatten]
  exact ⟨_, List.mem_map_of_mem _ (List.mem_range.mpr hr),
    List.mem_map_of_mem _ (List.mem_range.mpr hc)⟩

lemma tick_getElem? (u : Universe) (hlen : u.cells.length = u.width * u.height)
    {row col : Nat} (hr : row < u.height) (hc : col < u.width) :
    (u.tick).cells[u.get_index row col]? =
      some (next_cell (u.cellAt (u.get_index row col)) (u.live_neighbor_count row col)) := by
  rw [tick_cells_eq]
  exact getElem?_applyWrites_of_mem _ _ _ _ (tickWrites_fst_nodup u) (tickWrites_mem u hr hc)
    (by rw [hlen]; exact get_index_lt u hr hc)

lemma tick_length (u : Universe) : (u.tick).cells.length = u.cells.length := by
  rw [tick_cells_eq, length_applyWrites]

/-!
### Characterising `add_glider` as a write list
-/

lemma add_glider_cells_eq (u : Universe) (row col : Nat)
    (hw : u.width = 64) (hh : u.height = 64) :
    (u.add_glider row col).cells = applyWrites (gliderWrites row col) u.cells := by
  obtain ⟨w, h, cs⟩ := u
  simp only at hw hh
  subst hw; subst hh
  rfl

lemma gIdx_lt (row col dr dc : Nat) : gIdx row col dr dc < 64 * 64 := by
  simp only [gIdx]
  omega

lemma gliderWrites_fst_nodup (row col : Nat) :
    ((gliderWrites row col).map Prod.fst).Nodup := by
  simp only [gliderWrites, gIdx, List.map_cons, List.map_nil, List.nodup_cons,
    List.mem_cons, List.not_mem_nil, List.nodup_nil, not_or, or_false, and_true,
    not_false_eq_true, true_and]
  omega

lemma add_glider_length (u : Universe) (row col : Nat)
    (hw : u.width = 64) (hh : u.height = 64) :
    (u.add_glider row col).cells.length = u.cells.length := by
  rw [add_glider_cells_eq u row col hw hh, length_applyWrites]

/-!
### Cell-level facts and the spec-worded transition rule
-/

lemma Cell.toNat_le_one (c : Cell) : c.toNat ≤ 1 := by
  cases c <;> decide

lemma Cell.toggle_toggle (c : Cell) : c.toggle.toggle = c := by
  cases c <;> rfl

lemma Cell.toggle_ne (c : Cell) : c.toggle ≠ c := by
  cases c <;> decide

lemma count_alive_eq_sum_toNat (cs : List Cell) :
    cs.count Cell.Alive = (cs.map Cell.toNat).sum := by
  induction cs with
  | nil => rfl
  | cons c cs ih =>
    cases c <;> simp [List.count_cons, Cell.toNat, ih, Nat.add_comm]

lemma next_cell_eq_spec (cell : Cell) (n : Nat) : next_cell cell n = specNextCell cell n := by
  cases cell <;> simp only [next_cell, specNextCell] <;> simp <;> split_ifs <;>
    first | rfl | omega

/-!
### Further buffer helpers
-/

lemma getD_set_self (l : List Cell) (i : Nat) (a d : Cell) (h : i < l.length) :
    (l.set i a).getD i d = a := by
  rw [List.getD_eq_getElem?_getD, List.getElem?_set_self h]
  rfl

lemma deadUniverse_cellAt (j : Nat) : deadUniverse.cellAt j = Cell.Dead := by
  show (List.replicate (64 * 64) Cell.Dead).getD j Cell.Dead = Cell.Dead
  rw [List.getD_eq_getElem?_getD, List.getElem?_replicate]
  by_cases hj : j < 64 * 64
  · rw [if_pos hj]; rfl
  · rw [if_neg hj]; rfl

lemma applyWrites_idem (ws : List (Nat × Cell)) (l : List Cell)
    (hnd : (ws.map Prod.fst).Nodup) (hb : ∀ p ∈ ws, p.1 < l.length) :
    applyWrites ws (applyWrites ws l) = applyWrites ws l := by
  apply List.ext_getElem?
  intro j
  by_cases hj : ∃ v, (j, v) ∈ ws
  · obtain ⟨v, hv⟩ := hj
    have hlt : j < l.length := hb _ hv
    have hlt2 : j < (applyWrites ws l).length := by
      rw [length_applyWrites]; exact hlt
    rw [getElem?_applyWrites_of_mem _ _ _ _ hnd hv hlt2,
        getElem?_applyWrites_of_mem _ _ _ _ hnd hv hlt]
  · have hnot : j ∉ ws.map Prod.fst := by
      intro hmem
      rcases List.mem_map.mp hmem with ⟨⟨i, v⟩, hp, hfst⟩
      simp only at hfst
      subst hfst
      exact hj ⟨v, hp⟩
    rw [getElem?_applyWrites_of_not_mem _ _ _ hnot,
        getElem?_applyWrites_of_not_mem _ _ _ hnot]

/-!
### Pointwise facts about `add_glider` on the 64×64 grid
-/

lemma add_glider_cellAt_of_mem (u : Universe) (row col : Nat) (hw : u.width = 64)
    (hh : u.height = 64) (hlen : u.cells.length = u.width * u.height)
    {j : Nat} {v : Cell} (hmem : (j, v) ∈ gliderWrites row col) (hj : j < 64 * 64) :
    (u.add_glider row col).cellAt j = v := by
  apply cellAt_of_getElem?
  rw [add_glider_cells_eq u row col hw hh]
  exact getElem?_applyWrites_of_mem _ _ _ _ (gliderWrites_fst_nodup row col) hmem
    (by rw [hlen, hw, hh]; exact hj)

lemma gliderWrites_fst_eq_patch (row col : Nat) :
    (gliderWrites row col).map Prod.fst = gliderPatchIndices row col := by
  simp [gliderWrites, gliderPatchIndices]

lemma add_glider_cellAt_of_not_mem (u : Universe) (row col : Nat) (hw : u.width = 64)
    (hh : u.height = 64) {j : Nat} (hnot : j ∉ gliderPatchIndices row col) :
    (u.add_glider row col).cellAt j = u.cellAt j := by
  simp only [Universe.cellAt, List.getD_eq_getElem?_getD]
  rw [add_glider_cells_eq u row col hw hh, getElem?_applyWrites_of_not_mem]
  rw [gliderWrites_fst_eq_patch]
  exact hnot

lemma gliderWrites_fst_lt (row col : Nat) :
    ∀ p ∈ gliderWrites row col, p.1 < 64 * 64 := by
  intro p hp
  simp only [gliderWrites, List.mem_cons, List.not_mem_nil, or_false] at hp
  rcases hp with rfl | rfl | rfl | rfl | rfl | rfl | rfl | rfl | rfl <;>
    exact gIdx_lt _ _ _ _

lemma gliderAliveIndices_nodup (row col : Nat) : (gliderAliveIndices row col).Nodup := by
  simp only [gliderAliveIndices, gIdx, List.nodup_cons, List.mem_cons,
    List.not_mem_nil, List.nodup_nil, not_or, or_false, and_true,
    not_false_eq_true, true_and]
  omega

/-!
### Structure-level helpers
-/

lemma Universe.eq_of_fields {u1 u2 : Universe} (hw : u1.width = u2.width)
    (hh : u1.height = u2.height) (hc : u1.cells = u2.cells) : u1 = u2 := by
  obtain ⟨w1, h1, c1⟩ := u1
  obtain ⟨w2, h2, c2⟩ := u2
  simp only at hw hh hc
  subst hw; subst hh; subst hc
  rfl

lemma toggle_cell_cells (u : Universe) (row col : Nat) :
    (u.toggle_cell row col).cells =
      u.cells.set (u.get_index row col) ((u.cellAt (u.get_index row col)).toggle) := rfl

lemma applyOp_invariant (u : Universe) (op : Op) (hw : u.width = 64)
    (hh : u.height = 64) (hlen : u.cells.length = 64 * 64) :
    (applyOp u op).width = 64 ∧ (applyOp u op).height = 64 ∧
      (applyOp u op).cells.length = 64 * 64 := by
  cases op with
  | tick => exact ⟨hw, hh, by rw [applyOp, tick_length]; exact hlen⟩
  | toggle row col =>
    exact ⟨hw, hh, by rw [applyOp, toggle_cell_cells, List.length_set]; exact hlen⟩
  | glider row col =>
    exact ⟨hw, hh, by rw [applyOp, add_glider_length u row col hw hh]; exact hlen⟩

lemma applyOps_invariant (ops : List Op) (u : Universe) (hw : u.width = 64)
    (hh : u.height = 64) (hlen : u.cells.length = 64 * 64) :
    (applyOps u ops).width = 64 ∧ (applyOps u ops).height = 64 ∧
      (applyOps u ops).cells.length = 64 * 64 := by
  induction ops generalizing u with
  | nil => exact ⟨hw, hh, hlen⟩
  | cons op ops ih =>
    obtain ⟨hw', hh', hlen'⟩ := applyOp_invariant u op hw hh hlen
    exact ih (applyOp u op) hw' hh' hlen'

lemma deadUniverse_length :
    deadUniverse.cells.length = deadUniverse.width * deadUniverse.height := by
  show (List.replicate (64 * 64) Cell.Dead).length = 64 * 64
  rw [List.length_replicate]

/-!
### The claimed properties
-/

/-- C1 counterexample: the claim puts the glider's three-cell row on the
stamped center's southern (`delta_row = +1`) row, so for the in-range call
`add_glider(10, 10)` it requires offset `(+1, -1)` — cell `(11, 9)` — to
become `Alive` and offset `(-1, -1)` — cell `(9, 9)` — to become `Dead`.
The code does the opposite: `(11, 9)` ends `Dead` and `(9, 9)` ends
`Alive`. -/
theorem add_glider_south_row_refuted :
    (deadUniverse.add_glider 10 10).cellAt (deadUniverse.get_index 11 9) = Cell.Dead ∧
    (deadUniverse.add_glider 10 10).cellAt (deadUniverse.get_index 9 9) = Cell.Alive := by
  decide

/-- C1 (amended): for every in-range call `add_glider(row, column)` on a
64×64 universe, the nine cells of the 3×3 toroidal patch centered at
`(row, column)` are overwritten exactly per the code's offset table: all
three offsets with `delta_row = height - 1` (the northern row) become
`Alive`, offset `(0, +1)` becomes `Alive`, offset `(+1, 0)` becomes
`Alive`, and the remaining four offsets `(0, -1)`, `(0, 0)`, `(+1, -1)`,
`(+1, +1)` become `Dead` — i.e. the glider's three-cell row lies on the
stamped center's NORTHERN (`delta_row = height - 1`) row, with offsets
resolved by toroidal wrap modulo height/width (`gIdx row col dr dc` is the
flat index of offset `(dr, dc)`). -/
theorem add_glider_patch_table (u : Universe) (row col : Nat)
    (hw : u.width = 64) (hh : u.height = 64)
    (hlen : u.cells.length = u.width * u.height)
    (hr : row < u.height) (hc : col < u.width) :
    (u.add_glider row col).cellAt (gIdx row col 63 63) = Cell.Alive ∧
    (u.add_glider row col).cellAt (gIdx row col 63 0) = Cell.Alive ∧
    (u.add_glider row col).cellAt (gIdx row col 63 1) = Cell.Alive ∧
    (u.add_glider row col).cellAt (gIdx row col 0 63) = Cell.Dead ∧
    (u.add_glider row col).cellAt (gIdx row col 0 0) = Cell.Dead ∧
    (u.add_glider row col).cellAt (gIdx row col 0 1) = Cell.Alive ∧
    (u.add_glider row col).cellAt (gIdx row col 1 63) = Cell.Dead ∧
    (u.add_glider row col).cellAt (gIdx row col 1 0) = Cell.Alive ∧
    (u.add_glider row col).cellAt (gIdx row col 1 1) = Cell.Dead := by
  refine ⟨?_, ?_, ?_, ?_, ?_, ?_, ?_, ?_, ?_⟩ <;>
    exact add_glider_cellAt_of_mem u row col hw hh hlen (by simp [gliderWrites])
      (gIdx_lt _ _ _ _)

/-- Witness for C1 (amended) at the concrete in-range input `(10, 10)` on
the all-dead 64×64 universe. -/
theorem add_glider_patch_table_witness :
    (deadUniverse.add_glider 10 10).cellAt (gIdx 10 10 63 63) = Cell.Alive ∧
    (deadUniverse.add_glider 10 10).cellAt (gIdx 10 10 63 0) = Cell.Alive ∧
    (deadUniverse.add_glider 10 10).cellAt (gIdx 10 10 63 1) = Cell.Alive ∧
    (deadUniverse.add_glider 10 10).cellAt (gIdx 10 10 0 63) = Cell.Dead ∧
    (deadUniverse.add_glider 10 10).cellAt (gIdx 10 10 0 0) = Cell.Dead ∧
    (deadUniverse.add_glider 10 10).cellAt (gIdx 10 10 0 1) = Cell.Alive ∧
    (deadUniverse.add_glider 10 10).cellAt (gIdx 10 10 1 63) = Cell.Dead ∧
    (deadUniverse.add_glider 10 10).cellAt (gIdx 10 10 1 0) = Cell.Alive ∧
    (deadUniverse.add_glider 10 10).cellAt (gIdx 10 10 1 1) = Cell.Dead :=
  add_glider_patch_table deadUniverse 10 10 rfl rfl deadUniverse_length
    (by decide) (by decide)

/-- C2: `tick()` replaces the grid with the next generation: for every cell
with pre-tick state `cell` and pre-tick live-neighbor count `n`, the
post-tick state equals the specification's rule table (`specNextCell`),
and it is computed purely from the pre-tick universe `u` — the right-hand
side mentions only `u`, never the partially updated buffer. -/
theorem tick_applies_life_rules (u : Universe)
    (hlen : u.cells.length = u.width * u.height)
    (row col : Nat) (hr : row < u.height) (hc : col < u.width) :
    (u.tick).cellAt (u.get_index row col) =
      specNextCell (u.cellAt (u.get_index row col)) (u.live_neighbor_count row col) := by
  rw [cellAt_of_getElem? (tick_getElem? u hlen hr hc), next_cell_eq_spec]

/-- Witness for C2 at the concrete input: cell `(0, 0)` of the all-dead
64×64 universe. -/
theorem tick_applies_life_rules_witness :
    (deadUniverse.tick).cellAt (deadUniverse.get_index 0 0) =
      specNextCell (deadUniverse.cellAt (deadUniverse.get_index 0 0))
        (deadUniverse.live_neighbor_count 0 0) :=
  tick_applies_life_rules deadUniverse deadUniverse_length 0 0 (by decide) (by decide)

/-- C3 counterexample: the §4.5 table's five `Alive` entries around
`(20, 20)` include offset `(+1, -1)` — cell `(21, 19)` — yet stamping the
all-dead 64×64 universe leaves that cell `Dead`, while cell `(19, 19)`
(offset `(-1, -1)`, not an `Alive` entry of the table) becomes `Alive`:
the five live cells are not located at the table's `Alive` entries. -/
theorem glider_stamp_spec_table_refuted :
    (deadUniverse.add_glider 20 20).cellAt (deadUniverse.get_index 21 19) = Cell.Dead ∧
    (deadUniverse.add_glider 20 20).cellAt (deadUniverse.get_index 19 19) = Cell.Alive := by
  decide

/-- C3 (amended): for every in-range `(row, col)`, calling
`add_glider(row, col)` on the all-dead 64×64 universe yields a grid whose
`Alive` cells are exactly the five cells the code's table sets `Alive`
(`gliderAliveIndices`: the three northern-row offsets, `(0, +1)` and
`(+1, 0)`); these five indices are pairwise distinct, the other four cells
of the stamped 3×3 patch are `Dead` (they equal the all-dead grid's
cells), and every cell outside the 3×3 toroidal neighborhood is
unchanged. -/
theorem add_glider_on_dead_exactness (row col : Nat) (hr : row < 64) (hc : col < 64) :
    (∀ j, j < 64 * 64 →
      ((deadUniverse.add_glider row col).cellAt j = Cell.Alive ↔
        j ∈ gliderAliveIndices row col)) ∧
    (gliderAliveIndices row col).Nodup ∧
    (∀ j, j < 64 * 64 → j ∉ gliderPatchIndices row col →
      (deadUniverse.add_glider row col).cellAt j = deadUniverse.cellAt j) := by
  have hw : deadUniverse.width = 64 := rfl
  have hh : deadUniverse.height = 64 := rfl
  refine ⟨?_, gliderAliveIndices_nodup row col, ?_⟩
  · intro j hj
    constructor
    · intro halive
      by_contra hnotmem
      by_cases hpatch : j ∈ gliderPatchIndices row col
      · simp only [gliderAliveIndices, List.mem_cons, List.not_mem_nil, or_false,
          not_or] at hnotmem
        simp only [gliderPatchIndices, List.mem_cons, List.not_mem_nil,
          or_false] at hpatch
        have hdead : (deadUniverse.add_glider row col).cellAt j = Cell.Dead := by
          rcases hpatch with rfl | rfl | rfl | rfl | rfl | rfl | rfl | rfl | rfl
          · exact absurd rfl hnotmem.1
          · exact absurd rfl hnotmem.2.1
          · exact absurd rfl hnotmem.2.2.1
          · exact add_glider_cellAt_of_mem deadUniverse row col hw hh
              deadUniverse_length (by simp [gliderWrites]) (gIdx_lt _ _ _ _)
          · exact add_glider_cellAt_of_mem deadUniverse row col hw hh
              deadUniverse_length (by simp [gliderWrites]) (gIdx_lt _ _ _ _)
          · exact absurd rfl hnotmem.2.2.2.1
          · exact add_glider_cellAt_of_mem deadUniverse row col hw hh
              deadUniverse_length (by simp [gliderWrites]) (gIdx_lt _ _ _ _)
          · exact absurd rfl hnotmem.2.2.2.2
          · exact add_glider_cellAt_of_mem deadUniverse row col hw hh
              deadUniverse_length (by simp [gliderWrites]) (gIdx_lt _ _ _ _)
        rw [hdead] at halive
        exact absurd halive (by decide)
      · rw [add_glider_cellAt_of_not_mem deadUniverse row col hw hh hpatch,
          deadUniverse_cellAt] at halive
        exact absurd halive (by decide)
    · intro hmem
      have hwmem : (j, Cell.Alive) ∈ gliderWrites row col := by
        simp only [gliderAliveIndices, List.mem_cons, List.not_mem_nil,
          or_false] at hmem
        rcases hmem with rfl | rfl | rfl | rfl | rfl <;> simp [gliderWrites]
      exact add_glider_cellAt_of_mem deadUniverse row col hw hh
        deadUniverse_length hwmem hj
  · intro j hj hnot
    exact add_glider_cellAt_of_not_mem deadUniverse row col hw hh hnot

/-- Witness for C3 (amended) at the concrete input `(10, 10)`: index
`586 = 9 * 64 + 10` (the wrapped northern-center cell) is `Alive` and is
one of the five stamped-alive indices, while index `0` lies outside the
patch and is unchanged. -/
theorem add_glider_on_dead_exactness_witness :
    (deadUniverse.add_glider 10 10).cellAt 586 = Cell.Alive ∧
    (deadUniverse.add_glider 10 10).cellAt 0 = deadUniverse.cellAt 0 := by
  have h := add_glider_on_dead_exactness 10 10 (by decide) (by decide)
  exact ⟨(h.1 586 (by decide)).mpr (by decide), h.2.2 0 (by decide) (by decide)⟩

/-- C4: neighbor lookup is toroidal — the row above row `0` is
`height - 1`, the row below `height - 1` is `0`, the column left of `0` is
`width - 1`, the column right of `width - 1` is `0` — and
`live_neighbor_count(row, col)` counts the `Alive` cells among exactly
these eight wrapped neighbors. -/
theorem toroidal_wrap_neighbor_count (u : Universe) (row col : Nat) :
    u.north 0 = u.height - 1 ∧ u.south (u.height - 1) = 0 ∧
    u.west 0 = u.width - 1 ∧ u.east (u.width - 1) = 0 ∧
    u.live_neighbor_count row col =
      ((u.wrappedNeighbors row col).map
        (fun p => u.cellAt (u.get_index p.1 p.2))).count Cell.Alive := by
  refine ⟨rfl, by simp [Universe.south], rfl, by simp [Universe.east], ?_⟩
  rw [count_alive_eq_sum_toNat]
  simp only [Universe.wrappedNeighbors, Universe.live_neighbor_count, List.map_cons,
    List.map_nil, List.sum_cons, List.sum_nil]
  omega

/-- C5: for every grid content and every valid coordinate,
`live_neighbor_count` returns a value in the closed range `[0, 8]`. -/
theorem live_neighbor_count_range (u : Universe) (row col : Nat)
    (hr : row < u.height) (hc : col < u.width) :
    0 ≤ u.live_neighbor_count row col ∧ u.live_neighbor_count row col ≤ 8 := by
  refine ⟨Nat.zero_le _, ?_⟩
  simp only [Universe.live_neighbor_count]
  have h1 := Cell.toNat_le_one (u.cellAt (u.get_index (u.north row) (u.west col)))
  have h2 := Cell.toNat_le_one (u.cellAt (u.get_index (u.north row) col))
  have h3 := Cell.toNat_le_one (u.cellAt (u.get_index (u.north row) (u.east col)))
  have h4 := Cell.toNat_le_one (u.cellAt (u.get_index row (u.west col)))
  have h5 := Cell.toNat_le_one (u.cellAt (u.get_index row (u.east col)))
  have h6 := Cell.toNat_le_one (u.cellAt (u.get_index (u.south row) (u.west col)))
  have h7 := Cell.toNat_le_one (u.cellAt (u.get_index (u.south row) col))
  have h8 := Cell.toNat_le_one (u.cellAt (u.get_index (u.south row) (u.east col)))
  omega

/-- Witness for C5 at the concrete valid coordinate `(0, 0)` of the
all-dead 64×64 universe. -/
theorem live_neighbor_count_range_witness :
    0 ≤ deadUniverse.live_neighbor_count 0 0 ∧
      deadUniverse.live_neighbor_count 0 0 ≤ 8 :=
  live_neighbor_count_range deadUniverse 0 0 (by decide) (by decide)

/-- C6: `tick` is deterministic — for any two universes with equal width,
height and cell buffers, ticking each yields equal resulting grids; the
result is a pure function of the pre-call state. -/
theorem tick_deterministic (u1 u2 : Universe) (hw : u1.width = u2.width)
    (hh : u1.height = u2.height) (hc : u1.cells = u2.cells) :
    (u1.tick).cells = (u2.tick).cells := by
  have : u1 = u2 := Universe.eq_of_fields hw hh hc
  rw [this]

/-- Witness for C6: two references to the same all-dead 64×64 universe. -/
theorem tick_deterministic_witness :
    (deadUniverse.tick).cells = (deadUniverse.tick).cells :=
  tick_deterministic deadUniverse deadUniverse rfl rfl rfl

/-- C7: a single `toggle_cell(row, col)` flips exactly the cell at
`(row, col)` (its new value is the toggle of the old one, hence different),
leaves every other in-range cell and the dimensions unchanged, and calling
it twice restores the entire universe. -/
theorem toggle_cell_flips_exactly_one (u : Universe) (row col : Nat)
    (hr : row < u.height) (hc : col < u.width)
    (hlen : u.cells.length = u.width * u.height) :
    (u.toggle_cell row col).cellAt (u.get_index row col) =
      (u.cellAt (u.get_index row col)).toggle ∧
    (u.toggle_cell row col).cellAt (u.get_index row col) ≠
      u.cellAt (u.get_index row col) ∧
    (∀ r c, r < u.height → c < u.width → ¬(r = row ∧ c = col) →
      (u.toggle_cell row col).cellAt (u.get_index r c) = u.cellAt (u.get_index r c)) ∧
    (u.toggle_cell row col).width = u.width ∧
    (u.toggle_cell row col).height = u.height ∧
    (u.toggle_cell row col).toggle_cell row col = u := by
  have hidx : u.get_index row col < u.cells.length := by
    rw [hlen]; exact get_index_lt u hr hc
  have h1 : (u.toggle_cell row col).cellAt (u.get_index row col) =
      (u.cellAt (u.get_index row col)).toggle := by
    apply cellAt_of_getElem?
    rw [toggle_cell_cells]
    exact List.getElem?_set_self hidx
  refine ⟨h1, by rw [h1]; exact Cell.toggle_ne _, ?_, rfl, rfl, ?_⟩
  · intro r c hr' hc' hne
    have hne' : u.get_index r c ≠ u.get_index row col := fun he =>
      hne (get_index_inj u hc' hc he)
    show (u.toggle_cell row col).cells.getD (u.get_index r c) Cell.Dead = _
    rw [toggle_cell_cells, List.getD_eq_getElem?_getD,
      List.getElem?_set_ne (Ne.symm hne')]
    simp only [Universe.cellAt, List.getD_eq_getElem?_getD]
  · refine Universe.eq_of_fields rfl rfl ?_
    rw [toggle_cell_cells, toggle_cell_cells]
    have hI : (u.toggle_cell row col).get_index row col = u.get_index row col := rfl
    rw [hI, h1, Cell.toggle_toggle, List.set_set]
    exact set_getD_self u.cells (u.get_index row col) Cell.Dead hidx

/-- Witness for C7 at the concrete in-range input `(3, 4)` of the all-dead
64×64 universe. -/
theorem toggle_cell_flips_exactly_one_witness :
    (deadUniverse.toggle_cell 3 4).cellAt (deadUniverse.get_index 3 4) =
      (deadUniverse.cellAt (deadUniverse.get_index 3 4)).toggle ∧
    (deadUniverse.toggle_cell 3 4).toggle_cell 3 4 = deadUniverse := by
  have h := toggle_cell_flips_exactly_one deadUniverse 3 4 (by decide) (by decide)
    deadUniverse_length
  exact ⟨h.1, h.2.2.2.2.2⟩

/-- C8: `new()` constructs a 64×64 universe whose cell buffer has length
exactly `width * height`, and the dimension/length invariant is preserved
by every sequence of `tick`, `toggle_cell` and `add_glider` calls. -/
theorem new_dimensions_invariant :
    Universe.new.width = 64 ∧ Universe.new.height = 64 ∧
    Universe.new.cells.length = Universe.new.width * Universe.new.height ∧
    ∀ ops : List Op,
      (applyOps Universe.new ops).width = 64 ∧
      (applyOps Universe.new ops).height = 64 ∧
      (applyOps Universe.new ops).cells.length =
        (applyOps Universe.new ops).width * (applyOps Universe.new ops).height := by
  have hlen : Universe.new.cells.length = 64 * 64 := by
    show ((List.range (64 * 64)).map _).length = 64 * 64
    rw [List.length_map, List.length_range]
  refine ⟨rfl, rfl, hlen, ?_⟩
  intro ops
  obtain ⟨hw, hh, hl⟩ := applyOps_invariant ops Universe.new rfl rfl hlen
  exact ⟨hw, hh, by rw [hw, hh, hl]⟩

/-- C9: `add_glider` is idempotent — for every in-range `(row, col)` and
every starting 64×64 grid, stamping twice yields the same universe as
stamping once, since every patch cell is unconditionally overwritten with
a value independent of its prior contents. -/
theorem add_glider_idempotent (u : Universe) (row col : Nat) (hw : u.width = 64)
    (hh : u.height = 64) (hlen : u.cells.length = u.width * u.height)
    (hr : row < u.height) (hc : col < u.width) :
    (u.add_glider row col).add_glider row col = u.add_glider row col := by
  refine Universe.eq_of_fields rfl rfl ?_
  rw [add_glider_cells_eq (u.add_glider row col) row col hw hh,
    add_glider_cells_eq u row col hw hh]
  apply applyWrites_idem _ _ (gliderWrites_fst_nodup row col)
  intro p hp
  rw [hlen, hw, hh]
  exact gliderWrites_fst_lt row col p hp

/-- Witness for C9 at the concrete in-range input `(10, 10)` of the
all-dead 64×64 universe. -/
theorem add_glider_idempotent_witness :
    (deadUniverse.add_glider 10 10).add_glider 10 10 =
      deadUniverse.add_glider 10 10 :=
  add_glider_idempotent deadUniverse 10 10 rfl rfl deadUniverse_length
    (by decide) (by decide)

/-- C10: under the preconditions `row < height` and `col < width` on the
64×64 universe, every buffer index computed by `get_index`,
`live_neighbor_count` (the eight wrapped-neighbor indices), `tick`,
`toggle_cell` (the center index) and `add_glider` (the nine wrapped patch
indices) is strictly below `width * height`, and the `u32` index
arithmetic (`row * width + column`, `row + delta_row`, `col + delta_col`)
stays below `2^32`. -/
theorem index_arithmetic_safe (u : Universe) (row col : Nat)
    (hw : u.width = 64) (hh : u.height = 64)
    (hlen : u.cells.length = u.width * u.height)
    (hr : row < u.height) (hc : col < u.width) :
    u.get_index row col < u.width * u.height ∧
    u.get_index (u.north row) (u.west col) < u.width * u.height ∧
    u.get_index (u.north row) col < u.width * u.height ∧
    u.get_index (u.north row) (u.east col) < u.width * u.height ∧
    u.get_index row (u.west col) < u.width * u.height ∧
    u.get_index row (u.east col) < u.width * u.height ∧
    u.get_index (u.south row) (u.west col) < u.width * u.height ∧
    u.get_index (u.south row) col < u.width * u.height ∧
    u.get_index (u.south row) (u.east col) < u.width * u.height ∧
    (∀ dr ∈ [u.height - 1, 0, 1], ∀ dc ∈ [u.width - 1, 0, 1],
      u.get_index ((row + dr) % u.height) ((col + dc) % u.width) <
        u.width * u.height) ∧
    u.get_index row col < 2 ^ 32 ∧ row + (u.height - 1) < 2 ^ 32 ∧
    col + (u.width - 1) < 2 ^ 32 := by
  simp only [Universe.north, Universe.south, Universe.west, Universe.east,
    Universe.get_index, hw, hh] at hr hc ⊢
  refine ⟨?_, ?_, ?_, ?_, ?_, ?_, ?_, ?_, ?_, ?_, ?_, ?_, ?_⟩ <;>
    first
      | (intro dr hdr dc hdc; omega)
      | omega
      | (split_ifs <;> omega)

/-- Witness for C10 at the concrete in-range input `(0, 63)` (an edge cell,
so the wrap branches are exercised) of the all-dead 64×64 universe. -/
theorem index_arithmetic_safe_witness :
    deadUniverse.get_index 0 63 < deadUniverse.width * deadUniverse.height ∧
    deadUniverse.get_index (deadUniverse.north 0) (deadUniverse.west 63) <
      deadUniverse.width * deadUniverse.height ∧
    deadUniverse.get_index 0 63 < 2 ^ 32 := by
  have h := index_arithmetic_safe deadUniverse 0 63 rfl rfl deadUniverse_length
    (by decide) (by decide)
  exact ⟨h.1, h.2.1, h.2.2.2.2.2.2.2.2.2.2.1⟩

end GameOfLife
